import Mathlib

/-!
# MicMic desktop bridge — verification of the core components

A shallow embedding, in Lean 4, of the core of `src/desktop/mic_bridge_app.py`:
the preference matcher (`choose_preferred`), the bridge-client helpers
(`run_command`, `parse_adb_devices`, `AdbClient.get_connected_device`,
`AdbClient.is_package_installed`), the audio relay (`AudioRelay` and the
streaming loop of `AudioRelay._run`), and the session controller
(`MicMicApp._refresh_worker`, `_start_worker`, `_safe_stop`).

Python strings are modelled as `List Char`; `str.lower` as a character-wise
`Char.toLower` (the names involved are ASCII); `bytes` as `List Nat` (one
entry per byte).  External effects (subprocess runs, socket reads, OS device
catalogs) are passed in explicitly as environment values, and the side effects
the code performs (adb commands issued, status callbacks fired, threads
spawned) are recorded as explicit event traces, so that theorems can speak
about what the code does and in which order.
-/

/-! ## String helpers (Python `str` operations used by the source) -/

/-- The whitespace characters `str.strip`/`str.split` treat as separators. -/
def isSpaceChar (c : Char) : Bool :=
  c = ' ' || c = '\t' || c = '\n' || c = '\r' || c = '\x0b' || c = '\x0c'

/-- Remove leading whitespace (the left half of Python `str.strip`). -/
def stripLeft (l : List Char) : List Char := l.dropWhile isSpaceChar

/-- Remove trailing whitespace (the right half of Python `str.strip`). -/
def stripRight : List Char → List Char
  | [] => []
  | c :: t =>
    match stripRight t with
    | [] => if isSpaceChar c then [] else [c]
    | r => c :: r

/-- Python `str.strip()`: remove leading and trailing whitespace. -/
def strip (l : List Char) : List Char := stripRight (stripLeft l)

/-- Worker for `splitWs`: `acc` holds the current word, reversed. -/
def splitWsAux : List Char → List Char → List (List Char)
  | [], acc => if acc.isEmpty then [] else [acc.reverse]
  | c :: rest, acc =>
    if isSpaceChar c then
      if acc.isEmpty then splitWsAux rest []
      else acc.reverse :: splitWsAux rest []
    else splitWsAux rest (c :: acc)

/-- Python `str.split()` with no argument: split on runs of whitespace,
producing no empty words. -/
def splitWs (l : List Char) : List (List Char) := splitWsAux l []

/-- Python `needle in hay` on strings: `needle` occurs contiguously in `hay`. -/
def containsSub (hay needle : List Char) : Bool :=
  match hay with
  | [] => needle.isEmpty
  | c :: t => needle.isPrefixOf (c :: t) || containsSub t needle

/-- Python `str.lower()`, character-wise (faithful on the ASCII names the
program compares). -/
def lowerStr (l : List Char) : List Char := l.map Char.toLower

/-- Python `part.split(":", 1)[1]`: everything after the first colon.
Only used on tokens that do contain a colon. -/
def afterFirstColon (t : List Char) : List Char :=
  (t.dropWhile (fun c => !(c = ':'))).drop 1

/-- Python `" ".join(command)`. -/
def joinSpaces : List (List Char) → List Char
  | [] => []
  | [w] => w
  | w :: rest => w ++ ' ' :: joinSpaces rest

/-! ## Data model (the dataclasses of the source) -/

/-- `OutputDevice(index, name)`: a render endpoint as listed by sounddevice. -/
structure OutputDevice where
  index : Nat
  name : List Char
deriving DecidableEq

/-- `CaptureDevice(device_id, name)`: a recording endpoint as listed by pycaw. -/
structure CaptureDevice where
  device_id : List Char
  name : List Char
deriving DecidableEq

/-- `AdbDevice(serial, state, model)`: one line of `adb devices -l` output.
The spec's connection states map to the state strings adb prints:
Connected = `"device"`, Unauthorized = `"unauthorized"`, Offline =
`"offline"`; any other string is what the spec calls Absent. -/
structure AdbDevice where
  serial : List Char
  state : List Char
  model : List Char
deriving DecidableEq

/-- `"unknown"`, the state a one-token line defaults to. -/
def unknownState : List Char := "unknown".toList

/-- `"-"`, the model a line without a `model:` token defaults to. -/
def dashModel : List Char := "-".toList

/-- `"model:"`, the token key carrying the device model. -/
def modelKey : List Char := "model:".toList

/-! ## `parse_adb_devices` (src/desktop/mic_bridge_app.py lines 150-164)

The Python code iterates `output.splitlines()[1:]`; the input here is the
already-split list of lines, so `lines.drop 1` is that same iteration. -/

/-- The body of the `for` loop of `parse_adb_devices`, for one line:
`none` when the loop `continue`s (line blank after stripping), otherwise the
record appended.  The inner `[]` token case is unreachable (a stripped
non-blank line has at least one token, see `splitWs_strip_ne_nil`); Python
would raise an IndexError there. -/
def parse_line (raw : List Char) : Option AdbDevice :=
  let line := strip raw
  if line.isEmpty then none
  else
    match splitWs line with
    | [] => none
    | serial :: rest =>
      some
        { serial := serial
          state := match rest with | [] => unknownState | st :: _ => st
          model :=
            (rest.drop 1).foldl
              (fun m part => if modelKey.isPrefixOf part then afterFirstColon part else m)
              dashModel }

/-- `parse_adb_devices`: skip the header line, build one record per
non-blank line. -/
def parse_adb_devices (lines : List (List Char)) : List AdbDevice :=
  (lines.drop 1).filterMap parse_line

/-! ## `run_command` (lines 117-128) and the AdbClient operations

`subprocess.run` is modelled by a `CmdOutcome` passed in: either the completed
process (exit code and captured output) or an exceeded timeout.  A Python
exception is an `Except.error`: `MicBridgeError` carries its message,
`subprocess.TimeoutExpired` carries the command it interrupted. -/

/-- `subprocess.CompletedProcess`: exit code and captured text streams. -/
structure CompletedProcess where
  returncode : Int
  stdout : List Char
  stderr : List Char
deriving DecidableEq

/-- What one `subprocess.run` call did: completed, or exceeded its timeout. -/
inductive CmdOutcome
  | completes (cp : CompletedProcess)
  | timesOut
deriving DecidableEq

/-- The exceptions `run_command` can raise. -/
inductive PyError
  | micBridgeError (msg : List Char)
  | timeoutExpired (command : List (List Char))
deriving DecidableEq

deriving instance DecidableEq for Except

/-- `"sem detalhes"`, the fallback detail text. -/
def semDetalhes : List Char := "sem detalhes".toList

/-- `completed.stderr.strip() or completed.stdout.strip() or "sem detalhes"`. -/
def commandDetail (cp : CompletedProcess) : List Char :=
  if !(strip cp.stderr).isEmpty then strip cp.stderr
  else if !(strip cp.stdout).isEmpty then strip cp.stdout
  else semDetalhes

/-- The `MicBridgeError` message `f"Falha em {' '.join(command)}: {detail}"`. -/
def falhaMessage (command : List (List Char)) (cp : CompletedProcess) : List Char :=
  "Falha em ".toList ++ joinSpaces command ++ ": ".toList ++ commandDetail cp

/-- `run_command(command, check, timeout)`: raises `TimeoutExpired` when the
timeout is exceeded, raises `MicBridgeError` when `check` is set and the exit
code is nonzero, and otherwise returns the completed process. -/
def run_command (command : List (List Char)) (check : Bool) (outcome : CmdOutcome) :
    Except PyError CompletedProcess :=
  match outcome with
  | .timesOut => .error (.timeoutExpired command)
  | .completes cp =>
    if check && cp.returncode != 0 then .error (.micBridgeError (falhaMessage command cp))
    else .ok cp

/-- `"com.micmic.mobilemic"` (APP_PACKAGE). -/
def appPackage : List Char := "com.micmic.mobilemic".toList

/-- The argument vector of `AdbClient.is_package_installed`'s command. -/
def pmPathCommand : List (List Char) :=
  ["adb".toList, "shell".toList, "pm".toList, "path".toList, appPackage]

/-- The argument vector of `AdbClient.get_connected_device`'s listing command. -/
def devicesCommand : List (List Char) := ["adb".toList, "devices".toList, "-l".toList]

/-- `AdbClient.is_package_installed`: runs `adb shell pm path <pkg>` with
`check=False` and answers `returncode == 0 and "package:" in stdout`.  A
nonzero exit is a normal `false` answer, not an error. -/
def is_package_installed (outcome : CmdOutcome) : Except PyError Bool :=
  match run_command pmPathCommand false outcome with
  | .error e => .error e
  | .ok cp => .ok (cp.returncode == 0 && containsSub cp.stdout "package:".toList)

/-! ## `AdbClient.get_connected_device` (lines 174-184) -/

/-- The errors `get_connected_device` raises (each a `MicBridgeError` with its
own message in the source). -/
inductive AdbError
  | unauthorizedErr
  | offlineErr
  | noDeviceErr
deriving DecidableEq

/-- `dev.state == st` as a Bool test. -/
def hasState (st : List Char) (d : AdbDevice) : Bool := decide (d.state = st)

/-- `"device"`: the adb state of a connected, authorized phone. -/
def stateDevice : List Char := "device".toList

/-- `"unauthorized"`: RSA key not accepted on the phone. -/
def stateUnauthorized : List Char := "unauthorized".toList

/-- `"offline"`: cable present but the adb session is down. -/
def stateOffline : List Char := "offline".toList

/-- `get_connected_device` applied to the parsed device list: the first entry
in the `"device"` state, else the unauthorized error if any entry is
unauthorized, else the offline error if any is offline, else "no device". -/
def get_connected_device (devices : List AdbDevice) : Except AdbError AdbDevice :=
  match devices.find? (hasState stateDevice) with
  | some d => .ok d
  | none =>
    if devices.any (hasState stateUnauthorized) then .error .unauthorizedErr
    else if devices.any (hasState stateOffline) then .error .offlineErr
    else .error .noDeviceErr

/-! ## `choose_preferred` (lines 258-266)

The Python function duck-types `dev.name`; here the name projection is passed
explicitly so the one definition serves both device kinds. -/

/-- `hint.lower() in dev.name.lower()`: the inner test of `choose_preferred`. -/
def nameMatches {α : Type} (nameOf : α → List Char) (hint : List Char) (dev : α) : Bool :=
  containsSub (lowerStr (nameOf dev)) (lowerStr hint)

/-- `choose_preferred(devices, hints)`: `None` for an empty list; otherwise
the nested loops — first hint in priority order, first device matching it —
with `devices[0]` as the fallback. -/
def choose_preferred {α : Type} (devices : List α) (hints : List (List Char))
    (nameOf : α → List Char) : Option α :=
  if devices.isEmpty then none
  else
    match hints.findSome? (fun hint => devices.find? (nameMatches nameOf hint)) with
    | some dev => some dev
    | none => devices.head?

/-- `TARGET_MIC_NAME = "MICMIC"`. -/
def TARGET_MIC_NAME : List Char := "MICMIC".toList

/-- `PREFERRED_OUTPUT_HINTS`. -/
def PREFERRED_OUTPUT_HINTS : List (List Char) :=
  ["Virtual Speakers for AudioRelay".toList, "CABLE Input".toList, "VB-Audio".toList]

/-- `PREFERRED_CAPTURE_HINTS`. -/
def PREFERRED_CAPTURE_HINTS : List (List Char) :=
  [TARGET_MIC_NAME, "Virtual Mic for AudioRelay".toList, "CABLE Output".toList,
    "VB-Audio".toList]

/-! ## `AudioRelay` (lines 398-488)

The relay object's fields: the resolved output device, the stop event, and
the worker-thread handle.  `spawned` counts how many worker threads
`threading.Thread(...).start()` has ever created for this relay — the Python
heap holds those threads even though the object only keeps the newest handle,
so the count is part of the observable state. -/

/-- The `AudioRelay` object state. -/
structure AudioRelay where
  output_device_index : Nat
  output_device_name : List Char
  stopSet : Bool
  thread : Option Nat
  spawned : Nat
deriving DecidableEq

/-- `AudioRelay.__init__`: stop event unset, no worker thread yet. -/
def AudioRelay.make (idx : Nat) (nm : List Char) : AudioRelay :=
  { output_device_index := idx, output_device_name := nm,
    stopSet := false, thread := none, spawned := 0 }

/-- `AudioRelay.start` (lines 409-412): clear the stop event, create a fresh
worker thread and start it.  There is no check that a worker is already
active. -/
def AudioRelay.start (r : AudioRelay) : AudioRelay :=
  { r with stopSet := false, thread := some r.spawned, spawned := r.spawned + 1 }

/-- `AudioRelay.stop` (lines 414-428): set the stop event, close the sockets,
join the worker and drop the handle. -/
def AudioRelay.stop (r : AudioRelay) : AudioRelay :=
  { r with stopSet := true, thread := none }

/-! ## The streaming loop of `AudioRelay._run` (lines 459-469)

One socket read either yields a byte chunk (`recv` returned), times out
(`socket.timeout`: the loop continues), or raises some other exception,
which the `except` clause turns into the `"Erro no relay"` status event. -/

/-- One iteration's input to the `recv` loop. -/
inductive RecvResult
  | bytes (data : List Nat)
  | sockTimeout
  | raiseErr (msg : List Char)
deriving DecidableEq

/-- How the listen/stream worker ended. -/
inductive RelayEnd
  | stopRequested
  | eofDisconnect
  | errored (msg : List Char)
deriving DecidableEq

/-- `chunk = chunk[:-1] if len(chunk) % 2 else chunk`: drop a trailing
incomplete sample byte. -/
def dropTrailingOdd (chunk : List Nat) : List Nat :=
  if chunk.length % 2 = 1 then chunk.dropLast else chunk

/-- `audioop.tostereo(fragment, 2, 1, 1)` on even-length input: every 16-bit
(two-byte) sample is emitted twice, once per stereo channel; with both
factors 1 the sample values are unchanged.  (A trailing lone byte never
reaches this function; it is mapped to nothing.) -/
def tostereo : List Nat → List Nat
  | b0 :: b1 :: rest => b0 :: b1 :: b0 :: b1 :: tostereo rest
  | _ => []

/-- What the loop body writes to the output stream for one received chunk:
`audioop.tostereo(chunk[:-1 if odd], 2, 1, 1)`. -/
def processChunk (chunk : List Nat) : List Nat := tostereo (dropTrailingOdd chunk)

/-- The whole 16-bit samples of a chunk, as (low byte, high byte) pairs; a
trailing odd byte carries no complete sample. -/
def pairUp : List Nat → List (Nat × Nat)
  | b0 :: b1 :: rest => (b0, b1) :: pairUp rest
  | _ => []

/-- `"info"`, `"ok"`, `"error"`: the status-callback severity tags. -/
def infoLv : List Char := "info".toList

/-- See `infoLv`. -/
def okLv : List Char := "ok".toList

/-- See `infoLv`. -/
def errorLv : List Char := "error".toList

/-- `"Aguardando audio do celular..."`: emitted when the listener starts. -/
def aguardandoMsg : List Char := "Aguardando audio do celular...".toList

/-- `f"Stream ativo em {name}"`: emitted when the output stream opens. -/
def streamAtivoMsg (nm : List Char) : List Char := "Stream ativo em ".toList ++ nm

/-- `f"Erro no relay: {exc}"`: emitted by the `except` clause. -/
def erroRelayMsg (msg : List Char) : List Char := "Erro no relay: ".toList ++ msg

/-- The `while not self._stop.is_set()` recv loop: returns the buffers written
to the output device, the status events the loop itself emits, and how it
ended.  Exhausting the input list models the stop event being observed; a
zero-length `recv` result takes the `break`. -/
def streamPhase :
    List RecvResult → List (List Nat) × List (List Char × List Char) × RelayEnd
  | [] => ([], [], .stopRequested)
  | .sockTimeout :: rest => streamPhase rest
  | .raiseErr m :: _ => ([], [(erroRelayMsg m, errorLv)], .errored m)
  | .bytes c :: rest =>
    if c.isEmpty then ([], [], .eofDisconnect)
    else
      let pr := streamPhase rest
      ((if (processChunk c).isEmpty then pr.1 else processChunk c :: pr.1), pr.2.1, pr.2.2)

/-- The observable outcome of one `AudioRelay._run` worker. -/
structure RelayRun where
  writes : List (List Nat)
  events : List (List Char × List Char)
  ended : RelayEnd
deriving DecidableEq

/-- `AudioRelay._run` after a producer connected and the output stream opened:
the two startup status events, then the streaming loop. -/
def relay_run (devName : List Char) (recvs : List RecvResult) : RelayRun :=
  let pr := streamPhase recvs
  { writes := pr.1
    events := (aguardandoMsg, infoLv) :: (streamAtivoMsg devName, okLv) :: pr.2.1
    ended := pr.2.2 }

/-! ## The session controller (`MicMicApp`, lines 946-1075)

The controller state keeps the fields the worker methods read and write:
the running flag, whether `self._adb` is set, the chosen device pair, and the
relay instance.  The `_busy` flag only debounces the buttons while a worker
thread is in flight; between operations it is `False`, so both
`refresh_async` and `start_async` are available whenever a worker is not
currently executing — in this sequential model each operation runs to
completion, so the flag is omitted.

Every external call a worker makes is an explicit event so the theorems can
speak about which adb commands were issued and in what order. -/

/-- The externally visible actions of the controller workers. -/
inductive Ev
  | installApk
  | renameAttempt (ok : Bool)
  | setDefaultMic
  | routeCheck
  | relayStarted
  | portForward
  | remoteStart
  | statusTransmitting
  | logStartFailure
  | remoteStop
  | portRemove
  | forceStop
  | relayStopEv
  | statusError
deriving DecidableEq

/-- The controller's cross-cutting state. -/
structure CtrlState where
  running : Bool
  adbReady : Bool
  output_device : Option OutputDevice
  capture_device : Option CaptureDevice
  relay : Option AudioRelay
deriving DecidableEq

/-- `MicMicApp.__init__`: nothing resolved, nothing running. -/
def ctrlInit : CtrlState :=
  { running := false, adbReady := false,
    output_device := none, capture_device := none, relay := none }

/-- What the environment supplies to one `_refresh_worker` call: the two
device catalogs, whether enumerating them succeeded, whether `AdbClient()`
resolved an adb executable, and the parsed `adb devices -l` listing. -/
structure RefreshEnv where
  outputs : List OutputDevice
  captures : List CaptureDevice
  discoveryOk : Bool
  adbCtorOk : Bool
  adbDevices : List AdbDevice

/-- `_refresh_worker` (lines 951-974): re-enumerate the catalogs, reassign
`self.output_device` / `self.capture_device` through `choose_preferred`, then
construct the adb client.  Every exception is caught inside the method, so it
only ever updates fields; the status texts it sets are not modelled.  Note
the device fields are reassigned before the not-found checks, and
unconditionally on the running flag. -/
def refresh_worker (env : RefreshEnv) (s : CtrlState) : CtrlState :=
  if env.discoveryOk then
    let s1 := { s with
      output_device := choose_preferred env.outputs PREFERRED_OUTPUT_HINTS OutputDevice.name,
      capture_device :=
        choose_preferred env.captures PREFERRED_CAPTURE_HINTS CaptureDevice.name }
    if s1.output_device.isSome && s1.capture_device.isSome then
      if env.adbCtorOk then { s1 with adbReady := true } else s1
    else s1
  else s

/-- What the environment supplies to one `_safe_stop` call: whether the
fallback `AdbClient()` construction would succeed when `self._adb` is unset,
and the `subprocess.run` outcome of each of the three cleanup commands.
`forceCmd` is recorded for completeness but cannot change the observable
trace: the force-stop is the last statement inside the `try:`, so whether it
completes or times out, nothing after it is skipped and its exception (if
any) is swallowed by the `except`. -/
structure SafeStopEnv where
  ctorOk : Bool
  stopCmd : CmdOutcome
  removeCmd : CmdOutcome
  forceCmd : CmdOutcome

/-- The adb commands `_safe_stop`'s `try:` block issues, in order.  All three
run with `check=False`, so a nonzero exit raises nothing — but `run_command`
still raises `subprocess.TimeoutExpired` on an exceeded timeout, and the one
`try`/`except Exception: pass` wraps the whole block: a command that raises
skips every later command.  Each issued command is one event; the events
after the first raising command are missing. -/
def adbCleanupEvs (senv : SafeStopEnv) : List Ev :=
  match senv.stopCmd with
  | .timesOut => [Ev.remoteStop]
  | .completes _ =>
    match senv.removeCmd with
    | .timesOut => [Ev.remoteStop, Ev.portRemove]
    | .completes _ => [Ev.remoteStop, Ev.portRemove, Ev.forceStop]

/-- What the environment supplies to one `_start_worker` call beyond the
refresh: the phone listing seen by the worker's own `get_connected_device`
call, the success of each fallible step, and the cleanup-command outcomes
`_safe_stop` would see.  `captures2` is the re-read capture catalog after a
successful rename (that re-read is modelled as succeeding). -/
structure StartEnv where
  renv : RefreshEnv
  adbDevices2 : List AdbDevice
  pkgInstalled : Bool
  installOk : Bool
  renameOk : Bool
  captures2 : List CaptureDevice
  assignOk : Bool
  routeOk : Bool
  reverseOk : Bool
  amStartOk : Bool
  stopEnv : SafeStopEnv

/-- `_safe_stop` (lines 1061-1075): one `try:` block issuing the best-effort
remote "stop", forwarded-port removal and force-stop (`adbCleanupEvs`; the
whole block is skipped when no adb client exists and none can be
constructed), its exception swallowed, then — outside the `try:` —
`relay.stop()` and dropping the relay reference, which run regardless. -/
def safe_stop (senv : SafeStopEnv) (s : CtrlState) : CtrlState × List Ev :=
  let adbEvs : List Ev :=
    if s.adbReady || senv.ctorOk then adbCleanupEvs senv else []
  match s.relay with
  | some _ => ({ s with relay := none }, adbEvs ++ [Ev.relayStopEv])
  | none => ({ s with relay := none }, adbEvs)

/-- The result of the body of `_start_worker`'s `try:` block. -/
structure BodyResult where
  ok : Bool
  state : CtrlState
  events : List Ev
deriving DecidableEq

/-- The rename step of `_start_worker` (lines 998-1005): when the capture
device's name does not already contain "MICMIC", attempt the registry rename
(its result is logged, never raised); on success re-read the capture catalog
and, when `choose_preferred` finds a device, reassign `self.capture_device`.
Returns the state, the capture device the following steps use, and the
trace. -/
def rename_stage (env : StartEnv) (t : CtrlState) (capDev : CaptureDevice) :
    CtrlState × CaptureDevice × List Ev :=
  if containsSub (lowerStr capDev.name) (lowerStr TARGET_MIC_NAME) then
    (t, capDev, [])
  else if env.renameOk then
    match choose_preferred env.captures2 PREFERRED_CAPTURE_HINTS CaptureDevice.name with
    | some sel => ({ t with capture_device := some sel }, sel, [Ev.renameAttempt true])
    | none => (t, capDev, [Ev.renameAttempt true])
  else (t, capDev, [Ev.renameAttempt false])

/-- The `try:` body of `_start_worker` (lines 987-1032) after the refresh
call: the "Ambiente incompleto" check, the worker's own
`get_connected_device`, install-on-demand, the rename step, assigning the OS
default capture device (`set_default_capture_device`, an unguarded call whose
failure raises), the virtual-route check, relay construction and start, the
`adb reverse` port forward and the remote "start" command.  `ok := false`
means the body raised at that point with the state and trace so far. -/
def start_rest (env : StartEnv) (t : CtrlState) : BodyResult :=
  match t.output_device, t.capture_device, t.adbReady with
  | some outDev, some capDev, true =>
    (match get_connected_device env.adbDevices2 with
     | .error _ => { ok := false, state := t, events := [] }
     | .ok _ =>
       let instEvs : List Ev := if env.pkgInstalled then [] else [Ev.installApk]
       if !env.pkgInstalled && !env.installOk then
         { ok := false, state := t, events := instEvs }
       else
         let rs := rename_stage env t capDev
         let evs1 := instEvs ++ rs.2.2
         if !env.assignOk then { ok := false, state := rs.1, events := evs1 }
         else
           let evs2 := evs1 ++ [Ev.setDefaultMic]
           if !env.routeOk then { ok := false, state := rs.1, events := evs2 }
           else
             let evs3 := evs2 ++ [Ev.routeCheck]
             let t2 := { rs.1 with
               relay := some (AudioRelay.start (AudioRelay.make outDev.index outDev.name)) }
             let evs4 := evs3 ++ [Ev.relayStarted]
             if !env.reverseOk then { ok := false, state := t2, events := evs4 }
             else
               let evs5 := evs4 ++ [Ev.portForward]
               if !env.amStartOk then { ok := false, state := t2, events := evs5 }
               else { ok := true, state := t2,
                      events := evs5 ++ [Ev.remoteStart, Ev.statusTransmitting] })
  | _, _, _ => { ok := false, state := t, events := [] }

/-- The whole `try:` body of `_start_worker`: the `_refresh_worker` call
(which raises nothing), then `start_rest`. -/
def start_body (env : StartEnv) (s : CtrlState) : BodyResult :=
  start_rest env (refresh_worker env.renv s)

/-- `_start_worker` (lines 981-1040): the run-once guard under the lock, the
`try:` body, and the `except` handler — the failure log line, `_safe_stop`,
clearing the running flag and setting the "Erro" stream status. -/
def start_worker (env : StartEnv) (s : CtrlState) : CtrlState × List Ev :=
  if s.running then (s, [])
  else
    let r := start_body env { s with running := true }
    if r.ok then (r.state, r.events)
    else
      let ss := safe_stop env.stopEnv r.state
      ({ ss.1 with running := false },
        r.events ++ [Ev.logStartFailure] ++ ss.2 ++ [Ev.statusError])

/-! ## Concrete fixtures and derived definitions used by the theorems -/

/-- The record a non-blank line yields, phrased the way the claim reads: first
token is the serial, second token (if any) the state, and the model is the
value of the last `model:`-prefixed token among the tokens after the first
two, with the documented defaults.  (The `[]` token case never arises for a
non-blank line.) -/
def specRecord (raw : List Char) : AdbDevice :=
  match splitWs (strip raw) with
  | [] => { serial := [], state := unknownState, model := dashModel }
  | serial :: rest =>
    { serial := serial
      state := match rest with | [] => unknownState | st :: _ => st
      model :=
        match ((rest.drop 1).filter (fun t => modelKey.isPrefixOf t)).getLast? with
        | some t => afterFirstColon t
        | none => dashModel }

/-- C10's counterexample line `"serialX model:y"`: two tokens, so the second
token — `model:y` — becomes the state and the model stays `"-"`. -/
def cexLine : List Char := "serialX model:y".toList

/-- A recv prefix after which the loop is still running: only timeouts and
nonempty chunks (no zero-length read, no exception). -/
def preNoAbort : List RecvResult → Bool
  | [] => true
  | .sockTimeout :: rest => preNoAbort rest
  | .bytes c :: rest => !c.isEmpty && preNoAbort rest
  | .raiseErr _ :: _ => false

/-- A concrete virtual-cable output name used by the concrete runs below. -/
def cableName : List Char := "CABLE Input (VB-Audio Virtual Cable)".toList

/-- A concrete render catalog: one real card, one virtual cable. -/
def outCatalog : List OutputDevice :=
  [⟨0, "Speakers (Realtek Audio)".toList⟩, ⟨5, cableName⟩]

/-- A concrete capture device whose name already contains "MICMIC". -/
def capMicmic : CaptureDevice := ⟨"cap-id-2".toList, "MICMIC Virtual Mic".toList⟩

/-- A concrete capture catalog containing `capMicmic`. -/
def capCatalog : List CaptureDevice :=
  [⟨"cap-id-1".toList, "Microphone (Realtek Audio)".toList⟩, capMicmic]

/-- A capture device named after the virtual cable (no "MICMIC" in it). -/
def capCable : CaptureDevice :=
  ⟨"cap-id-3".toList, "CABLE Output (VB-Audio Virtual Cable)".toList⟩

/-- A capture catalog in which only the cable device is virtual. -/
def capCatalogCable : List CaptureDevice :=
  [⟨"cap-id-1".toList, "Microphone (Realtek Audio)".toList⟩, capCable]

/-- A connected phone as `adb devices -l` reports it. -/
def phoneDev : AdbDevice := ⟨"R58M1234".toList, stateDevice, "SM_G973F".toList⟩

/-- A refresh environment in which discovery and adb both succeed. -/
def renvGood : RefreshEnv :=
  { outputs := outCatalog, captures := capCatalog, discoveryOk := true,
    adbCtorOk := true, adbDevices := [phoneDev] }

/-- A completed process with exit status 0 and no output. -/
def okRun : CompletedProcess := { returncode := 0, stdout := [], stderr := [] }

/-- A cleanup environment in which all three commands complete. -/
def senvGood : SafeStopEnv :=
  { ctorOk := true, stopCmd := .completes okRun, removeCmd := .completes okRun,
    forceCmd := .completes okRun }

/-- A cleanup environment in which the remote "stop" command hangs past its
timeout, so `run_command` raises `TimeoutExpired` inside the `try:`. -/
def senvStopHang : SafeStopEnv := { senvGood with stopCmd := .timesOut }

/-- A start environment in which every step succeeds. -/
def envGood : StartEnv :=
  { renv := renvGood, adbDevices2 := [phoneDev], pkgInstalled := true,
    installOk := true, renameOk := true, captures2 := capCatalog,
    assignOk := true, routeOk := true, reverseOk := true, amStartOk := true,
    stopEnv := senvGood }

/-- The all-good environment except that the remote "start" command fails. -/
def envFailAm : StartEnv := { envGood with amStartOk := false }

/-- Start fails at the remote "start" command AND the cleanup's own remote
"stop" command then times out. -/
def envFailAmHang : StartEnv :=
  { envGood with amStartOk := false, stopEnv := senvStopHang }

/-- A refresh environment whose capture catalog has no "MICMIC" device. -/
def renvCable : RefreshEnv := { renvGood with captures := capCatalogCable }

/-- All-good start environment, but the capture device needs the rename and
the registry rename fails. -/
def envRenameFail : StartEnv :=
  { envGood with renv := renvCable, renameOk := false, captures2 := capCatalogCable }

/-- All-good start environment except that assigning the OS default capture
device fails. -/
def envAssignFail : StartEnv := { envGood with assignOk := false }


/-! ## Theorems -/

/-- The nested loops of `choose_preferred` — first hint in order, first
device matching it — equal: find the first hint matching some device, then
find the first device matching that hint. -/
theorem findSome?_find?_chain {α : Type} (l : List α) (p : List Char → α → Bool)
    (hints : List (List Char)) :
    hints.findSome? (fun h => l.find? (p h)) =
      match hints.find? (fun h => l.any (p h)) with
      | some h => l.find? (p h)
      | none => none := by
  induction hints with
  | nil => simp
  | cons h hs ih =>
    rw [List.findSome?_cons, List.find?_cons]
    cases hfd : l.find? (p h) with
    | some d =>
      have hany : l.any (p h) = true :=
        List.any_eq_true.mpr ⟨d, List.mem_of_find?_eq_some hfd, List.find?_some hfd⟩
      simp [hany, hfd]
    | none =>
      have hany : l.any (p h) = false := by
        rw [← Bool.not_eq_true, List.any_eq_true]
        rintro ⟨x, hx, hpx⟩
        exact absurd hpx (List.find?_eq_none.mp hfd x hx)
      simp [hany, ih]

/-- C1: `choose_preferred` iterates the hints in priority order and, for each
hint, scans the devices in original order returning the first whose display
name contains that hint case-insensitively; when no hint matches any device
it falls back to the first device, and it returns `none` iff the device list
is empty. -/
theorem choose_preferred_spec {α : Type} (devices : List α) (hints : List (List Char))
    (nameOf : α → List Char) :
    (choose_preferred devices hints nameOf =
      match hints.find? (fun hint => devices.any (nameMatches nameOf hint)) with
      | some hint => devices.find? (nameMatches nameOf hint)
      | none => devices.head?) ∧
    (choose_preferred devices hints nameOf = none ↔ devices = []) := by
  constructor
  · cases devices with
    | nil =>
      rw [choose_preferred]
      cases hf : hints.find? (fun hint => ([] : List α).any (nameMatches nameOf hint)) <;>
        simp_all
    | cons d ds =>
      rw [choose_preferred]
      simp only [List.isEmpty_cons, Bool.false_eq_true, if_false]
      rw [findSome?_find?_chain (d :: ds) (fun h => nameMatches nameOf h) hints]
      cases hfh : hints.find? (fun hint => (d :: ds).any (nameMatches nameOf hint)) with
      | none => simp
      | some h =>
        have hany := List.find?_some hfh
        simp only [] at hany
        obtain ⟨x, hx, hpx⟩ := List.any_eq_true.mp hany
        have hsome : ((d :: ds).find? (nameMatches nameOf h)).isSome :=
          List.find?_isSome.mpr ⟨x, hx, hpx⟩
        cases hfd : (d :: ds).find? (nameMatches nameOf h) with
        | none => rw [hfd] at hsome; simp at hsome
        | some dev => simp [hfd]
  · cases devices with
    | nil => simp [choose_preferred]
    | cons d ds =>
      rw [choose_preferred]
      simp only [List.isEmpty_cons, Bool.false_eq_true, if_false]
      cases hs : (d :: ds).head? with
      | none => simp at hs
      | some d0 =>
        cases hf : hints.findSome? (fun hint => (d :: ds).find? (nameMatches nameOf hint)) <;>
          simp_all

/-- `find?` returns exactly the first list element satisfying the test. -/
theorem find?_eq_some_first {α : Type} (p : α → Bool) (l : List α) (a : α) :
    l.find? p = some a ↔
      (p a = true ∧ ∃ l1 l2, l = l1 ++ a :: l2 ∧ ∀ x ∈ l1, p x = false) := by
  induction l with
  | nil => simp
  | cons b bs ih =>
    rw [List.find?_cons]
    cases hb : p b with
    | true =>
      constructor
      · intro h
        have hba : b = a := by simpa using h
        subst hba
        exact ⟨hb, [], bs, rfl, by simp⟩
      · rintro ⟨hpa, l1, l2, heq, hall⟩
        cases l1 with
        | nil =>
          simp only [List.nil_append, List.cons.injEq] at heq
          simp [heq.1]
        | cons x xs =>
          simp only [List.cons_append, List.cons.injEq] at heq
          have : p b = false := heq.1 ▸ hall x (by simp)
          rw [hb] at this
          exact absurd this (by simp)
    | false =>
      rw [ih]
      constructor
      · rintro ⟨hpa, l1, l2, heq, hall⟩
        refine ⟨hpa, b :: l1, l2, by rw [heq]; rfl, ?_⟩
        intro x hx
        rcases List.mem_cons.mp hx with hxb | hxm
        · rw [hxb]; exact hb
        · exact hall x hxm
      · rintro ⟨hpa, l1, l2, heq, hall⟩
        cases l1 with
        | nil =>
          simp only [List.nil_append, List.cons.injEq] at heq
          rw [heq.1] at hb
          rw [hpa] at hb
          exact absurd hb (by simp)
        | cons x xs =>
          simp only [List.cons_append, List.cons.injEq] at heq
          refine ⟨hpa, xs, l2, heq.2, ?_⟩
          intro y hy
          exact hall y (by simp [hy])

/-- C2: `get_connected_device` returns the first entry whose state is
`"device"` (Connected); when none is, it fails with the unauthorized error
iff some entry is `"unauthorized"`, else with the offline error iff some
entry is `"offline"`, else with the no-device error — the priority order
Connected > Unauthorized > Offline > Absent. -/
theorem get_connected_device_spec (devices : List AdbDevice) :
    (∀ d, get_connected_device devices = .ok d ↔
      (hasState stateDevice d = true ∧
        ∃ l1 l2, devices = l1 ++ d :: l2 ∧ ∀ x ∈ l1, hasState stateDevice x = false)) ∧
    (get_connected_device devices = .error .unauthorizedErr ↔
      ((∀ d ∈ devices, hasState stateDevice d = false) ∧
        ∃ d ∈ devices, hasState stateUnauthorized d = true)) ∧
    (get_connected_device devices = .error .offlineErr ↔
      ((∀ d ∈ devices, hasState stateDevice d = false) ∧
        (∀ d ∈ devices, hasState stateUnauthorized d = false) ∧
        ∃ d ∈ devices, hasState stateOffline d = true)) ∧
    (get_connected_device devices = .error .noDeviceErr ↔
      ((∀ d ∈ devices, hasState stateDevice d = false) ∧
        (∀ d ∈ devices, hasState stateUnauthorized d = false) ∧
        (∀ d ∈ devices, hasState stateOffline d = false))) := by
  unfold get_connected_device
  cases hfd : devices.find? (hasState stateDevice) with
  | some d0 =>
    have hmem := List.mem_of_find?_eq_some hfd
    have hpd0 := List.find?_some hfd
    refine ⟨?_, ?_, ?_, ?_⟩
    · intro d
      constructor
      · intro h
        have : d0 = d := by simpa using h
        subst this
        exact (find?_eq_some_first (hasState stateDevice) devices d0).mp hfd
      · intro hspec
        have : devices.find? (hasState stateDevice) = some d :=
          (find?_eq_some_first (hasState stateDevice) devices d).mpr hspec
        rw [hfd] at this
        simpa using this
    all_goals
      constructor
      · intro h; simp at h
      · rintro ⟨hall, -⟩
        exact absurd (hall d0 hmem) (by simp [hpd0])
  | none =>
    have hall : ∀ x ∈ devices, hasState stateDevice x = false := by
      intro x hx
      have := List.find?_eq_none.mp hfd x hx
      simpa using this
    have hok : ∀ d, (∃ l1 l2, devices = l1 ++ d :: l2 ∧
        ∀ x ∈ l1, hasState stateDevice x = false) → hasState stateDevice d = true →
        False := by
      rintro d ⟨l1, l2, heq, hl1⟩ hpd
      have : devices.find? (hasState stateDevice) = some d :=
        (find?_eq_some_first (hasState stateDevice) devices d).mpr ⟨hpd, l1, l2, heq, hl1⟩
      rw [hfd] at this
      exact absurd this (by simp)
    cases hu : devices.any (hasState stateUnauthorized) with
    | true =>
      simp only [if_true]
      refine ⟨?_, ?_, ?_, ?_⟩
      · intro d
        constructor
        · intro h; simp at h
        · rintro ⟨hpd, hrest⟩; exact absurd hpd (fun hpd => hok d hrest hpd)
      · constructor
        · intro _
          exact ⟨hall, List.any_eq_true.mp hu⟩
        · intro _
          trivial
      · constructor
        · intro h; simp at h
        · rintro ⟨-, hnone, -⟩
          obtain ⟨d, hd, hpd⟩ := List.any_eq_true.mp hu
          exact absurd (hnone d hd) (by simp [hpd])
      · constructor
        · intro h; simp at h
        · rintro ⟨-, hnone, -⟩
          obtain ⟨d, hd, hpd⟩ := List.any_eq_true.mp hu
          exact absurd (hnone d hd) (by simp [hpd])
    | false =>
      have hnu : ∀ x ∈ devices, hasState stateUnauthorized x = false := by
        intro x hx
        cases h : hasState stateUnauthorized x with
        | false => rfl
        | true => rw [List.any_eq_true.mpr ⟨x, hx, h⟩] at hu; exact absurd hu (by simp)
      simp only [Bool.false_eq_true, if_false]
      cases ho : devices.any (hasState stateOffline) with
      | true =>
        simp only [if_true]
        refine ⟨?_, ?_, ?_, ?_⟩
        · intro d
          constructor
          · intro h; simp at h
          · rintro ⟨hpd, hrest⟩; exact absurd hpd (fun hpd => hok d hrest hpd)
        · constructor
          · intro h; simp at h
          · rintro ⟨-, hex⟩
            obtain ⟨d, hd, hpd⟩ := hex
            exact absurd (hnu d hd) (by simp [hpd])
        · constructor
          · intro _
            exact ⟨hall, hnu, List.any_eq_true.mp ho⟩
          · intro _
            trivial
        · constructor
          · intro h; simp at h
          · rintro ⟨-, -, hnone⟩
            obtain ⟨d, hd, hpd⟩ := List.any_eq_true.mp ho
            exact absurd (hnone d hd) (by simp [hpd])
      | false =>
        have hno : ∀ x ∈ devices, hasState stateOffline x = false := by
          intro x hx
          cases h : hasState stateOffline x with
          | false => rfl
          | true => rw [List.any_eq_true.mpr ⟨x, hx, h⟩] at ho; exact absurd ho (by simp)
        simp only [Bool.false_eq_true, if_false]
        refine ⟨?_, ?_, ?_, ?_⟩
        · intro d
          constructor
          · intro h; simp at h
          · rintro ⟨hpd, hrest⟩; exact absurd hpd (fun hpd => hok d hrest hpd)
        · constructor
          · intro h; simp at h
          · rintro ⟨-, hex⟩
            obtain ⟨d, hd, hpd⟩ := hex
            exact absurd (hnu d hd) (by simp [hpd])
        · constructor
          · intro h; simp at h
          · rintro ⟨-, -, hex⟩
            obtain ⟨d, hd, hpd⟩ := hex
            exact absurd (hno d hd) (by simp [hpd])
        · constructor
          · intro _
            exact ⟨hall, hnu, hno⟩
          · intro _
            trivial

/-- The first character `dropWhile` keeps fails the test. -/
theorem dropWhile_head_not {α : Type} (p : α → Bool) :
    ∀ (l : List α) (c : α) (t : List α), l.dropWhile p = c :: t → p c = false
  | [], c, t => by simp
  | b :: bs, c, t => by
    rw [List.dropWhile_cons]
    cases hb : p b with
    | true => simp only [if_true]; exact dropWhile_head_not p bs c t
    | false =>
      simp only [Bool.false_eq_true, if_false, List.cons.injEq]
      rintro ⟨hbc, -⟩
      rw [← hbc]
      exact hb

/-- `stripRight` only removes characters, so a nonempty result keeps the
original head. -/
theorem stripRight_cons_shape (c : Char) (t : List Char) :
    stripRight (c :: t) = [] ∨ ∃ r, stripRight (c :: t) = c :: r := by
  rw [stripRight]
  cases h : stripRight t with
  | nil =>
    cases hws : isSpaceChar c
    · exact Or.inr ⟨[], by simp [hws]⟩
    · exact Or.inl (by simp [hws])
  | cons x xs => exact Or.inr ⟨x :: xs, rfl⟩

/-- A nonempty stripped string starts with a non-whitespace character. -/
theorem strip_head_not_space (l : List Char) (c : Char) (t : List Char)
    (h : strip l = c :: t) : isSpaceChar c = false := by
  unfold strip at h
  cases hsl : stripLeft l with
  | nil => rw [hsl] at h; simp [stripRight] at h
  | cons c' t' =>
    have hc' : isSpaceChar c' = false := dropWhile_head_not isSpaceChar l c' t' hsl
    rw [hsl] at h
    rcases stripRight_cons_shape c' t' with hnil | ⟨r, hr⟩
    · rw [hnil] at h; exact absurd h (by simp)
    · rw [hr] at h
      have : c' = c := (List.cons.injEq _ _ _ _ ▸ h).1
      rw [← this]
      exact hc'

/-- `splitWsAux` with a word in progress emits at least that word. -/
theorem splitWsAux_ne_nil :
    ∀ (l acc : List Char), acc ≠ [] → splitWsAux l acc ≠ []
  | [], acc, h => by simp [splitWsAux, h]
  | c :: rest, acc, h => by
    rw [splitWsAux]
    cases hws : isSpaceChar c
    · simp only [Bool.false_eq_true, if_false]
      exact splitWsAux_ne_nil rest (c :: acc) (by simp)
    · simp only [if_true, List.isEmpty_eq_true, h, if_false]
      simp

/-- A non-blank line has at least one whitespace-separated token. -/
theorem splitWs_strip_ne_nil (l : List Char) (h : (strip l).isEmpty = false) :
    splitWs (strip l) ≠ [] := by
  cases hs : strip l with
  | nil => rw [hs] at h; simp at h
  | cons c t =>
    have hc : isSpaceChar c = false := strip_head_not_space l c t hs
    rw [splitWs, splitWsAux, hc]
    simp only [Bool.false_eq_true, if_false]
    exact splitWsAux_ne_nil t [c] (by simp)

/-- A left fold that overwrites on every test hit computes the value of the
last element passing the test. -/
theorem foldl_lastwins (v : List Char → List Char) (p : List Char → Bool) :
    ∀ (ts : List (List Char)) (m0 : List Char),
      ts.foldl (fun m t => if p t then v t else m) m0 =
        match (ts.filter p).getLast? with
        | some t => v t
        | none => m0
  | [], m0 => by simp
  | t :: ts, m0 => by
    rw [List.foldl_cons, foldl_lastwins v p ts, List.filter_cons]
    cases hp : p t with
    | true =>
      simp only [if_true, List.getLast?_cons]
      cases hlast : (ts.filter p).getLast? with
      | none => simp [hlast]
      | some u => simp [hlast]
    | false =>
      simp only [Bool.false_eq_true, if_false]

/-- Per line, the loop body produces exactly the claimed record for a
non-blank line and nothing for a blank one. -/
theorem parse_line_eq (raw : List Char) :
    parse_line raw =
      if (strip raw).isEmpty then none else some (specRecord raw) := by
  rw [parse_line, specRecord]
  cases hb : (strip raw).isEmpty with
  | true => simp
  | false =>
    simp only [Bool.false_eq_true, if_false]
    cases hts : splitWs (strip raw) with
    | nil => exact absurd hts (splitWs_strip_ne_nil raw hb)
    | cons serial rest =>
      simp only [Option.some.injEq, AdbDevice.mk.injEq]
      refine ⟨trivial, trivial, ?_⟩
      exact foldl_lastwins afterFirstColon (fun t => modelKey.isPrefixOf t) (rest.drop 1)
        dashModel

/-- C10 (amended): `parse_adb_devices` never produces a record from the first
line — the output is a function of the later lines only — and the records
are, in order, exactly one per subsequent line that is non-blank (non-empty
after stripping whitespace; a whitespace-only line yields none), each record
being `specRecord` of its line: first token as serial, second token as state
(defaulting to `"unknown"`), and the value of the last `model:` token among
the tokens after the first two as model (defaulting to `"-"`). -/
theorem parse_adb_devices_spec (lines : List (List Char)) :
    parse_adb_devices lines =
      ((lines.drop 1).filter (fun l => !(strip l).isEmpty)).map specRecord ∧
    (∀ first1 first2 rest, parse_adb_devices (first1 :: rest) =
      parse_adb_devices (first2 :: rest)) := by
  constructor
  · rw [parse_adb_devices]
    induction lines.drop 1 with
    | nil => simp
    | cons l ls ih =>
      rw [List.filterMap_cons, List.filter_cons, parse_line_eq]
      cases hb : (strip l).isEmpty with
      | true => simpa [hb] using ih
      | false => simpa [hb] using ih
  · intro first1 first2 rest
    rw [parse_adb_devices, parse_adb_devices]
    simp

/-- C10, the claim as frozen is false: on the input whose lines are a header,
a whitespace-only line and `"serialX model:y"`, the two subsequent lines are
non-empty strings yet only one record is produced (the blank line is
skipped), and that record's model is `"-"`, not the value `"y"` of the line's
last `model:` token (which sits in second position, so the code never scans
it). -/
theorem parse_adb_devices_cex :
    parse_adb_devices ["List of devices attached".toList, " ".toList, cexLine] =
      [{ serial := "serialX".toList, state := "model:y".toList, model := dashModel }] ∧
    (" ".toList : List Char) ≠ [] ∧
    (parse_adb_devices ["List of devices attached".toList, " ".toList, cexLine]).length ≠ 2 ∧
    (parse_adb_devices ["List of devices attached".toList, " ".toList, cexLine]).map
      AdbDevice.model ≠ ["y".toList] := by
  decide

/-- Dropping the trailing odd byte commutes with peeling one whole sample. -/
theorem dropTrailingOdd_cons₂ (b0 b1 : Nat) (rest : List Nat) :
    dropTrailingOdd (b0 :: b1 :: rest) = b0 :: b1 :: dropTrailingOdd rest := by
  rw [dropTrailingOdd, dropTrailingOdd]
  simp only [List.length_cons]
  have h2 : (rest.length + 1 + 1) % 2 = rest.length % 2 := by omega
  simp only [h2]
  by_cases hm : rest.length % 2 = 1
  · rw [if_pos hm, if_pos hm]
    cases rest with
    | nil => simp at hm
    | cons r rs => rfl
  · rw [if_neg hm, if_neg hm]

/-- The written bytes are exactly the whole samples, each emitted once per
stereo channel. -/
theorem processChunk_eq_bind :
    ∀ chunk : List Nat,
      processChunk chunk = (pairUp chunk).flatMap (fun s => [s.1, s.2, s.1, s.2])
  | [] => by simp [processChunk, dropTrailingOdd, tostereo, pairUp]
  | [b] => by simp [processChunk, dropTrailingOdd, tostereo, pairUp]
  | b0 :: b1 :: rest => by
    have ih := processChunk_eq_bind rest
    rw [processChunk] at ih ⊢
    rw [dropTrailingOdd_cons₂]
    simp [tostereo, pairUp, ih]

/-- A chunk carries `⌊bytes/2⌋` whole samples. -/
theorem pairUp_length : ∀ chunk : List Nat, (pairUp chunk).length = chunk.length / 2
  | [] => by simp [pairUp]
  | [b] => by simp [pairUp]
  | b0 :: b1 :: rest => by
    have ih := pairUp_length rest
    simp only [pairUp, List.length_cons, ih]
    omega

/-- Reading the written byte stream back as samples: every mono sample
appears twice in a row. -/
theorem pairUp_bind_pairs :
    ∀ ps : List (Nat × Nat),
      pairUp (ps.flatMap (fun s => [s.1, s.2, s.1, s.2])) = ps.flatMap (fun s => [s, s])
  | [] => by simp [pairUp]
  | p :: ps => by
    have ih := pairUp_bind_pairs ps
    rw [List.flatMap_cons, List.flatMap_cons]
    simp only [List.cons_append, List.nil_append]
    rw [pairUp, pairUp]
    simp [ih]

/-- C8: for every received chunk, the bytes the relay writes are the chunk
with any trailing odd byte (incomplete 16-bit sample) dropped and every
remaining sample duplicated into both stereo channels.  At sample
granularity, the written stream is each mono sample twice in a row (so
`[s0, s1, s2]` goes out as `[s0, s0, s1, s1, s2, s2]`), and a chunk of `n`
bytes contributes exactly `n / 2` samples — a 5-byte chunk exactly 2. -/
theorem chunk_transform_spec (chunk : List Nat) :
    processChunk chunk = (pairUp chunk).flatMap (fun s => [s.1, s.2, s.1, s.2]) ∧
    (pairUp chunk).length = chunk.length / 2 ∧
    pairUp (processChunk chunk) = (pairUp chunk).flatMap (fun s => [s, s]) ∧
    (pairUp [1, 2, 3, 4, 5]).length = 2 := by
  refine ⟨processChunk_eq_bind chunk, pairUp_length chunk, ?_, by decide⟩
  rw [processChunk_eq_bind chunk]
  exact pairUp_bind_pairs (pairUp chunk)

/-- C5 (amended): a zero-length socket read ends the streaming loop as an
orderly disconnect — not an error: the worker ends in `eofDisconnect`, never
in `errored`, and no `"Erro no relay"` event fires — but it triggers no
status event at all: the loop's own event trace is empty, and the full run's
events remain exactly the two startup messages emitted before streaming
began.  No "disconnected" status event exists in the implementation. -/
theorem zero_read_clean_end (devName : List Char) (pre : List RecvResult)
    (h : preNoAbort pre = true) :
    (streamPhase (pre ++ [RecvResult.bytes []])).2.2 = RelayEnd.eofDisconnect ∧
    (streamPhase (pre ++ [RecvResult.bytes []])).2.1 = [] ∧
    (relay_run devName (pre ++ [RecvResult.bytes []])).events =
      [(aguardandoMsg, infoLv), (streamAtivoMsg devName, okLv)] := by
  induction pre with
  | nil => simp [streamPhase, relay_run]
  | cons r rest ih =>
    cases r with
    | sockTimeout =>
      rw [preNoAbort] at h
      have hr := ih h
      refine ⟨?_, ?_, ?_⟩
      · rw [List.cons_append, streamPhase]
        exact hr.1
      · rw [List.cons_append, streamPhase]
        exact hr.2.1
      · rw [relay_run] at hr ⊢
        rw [List.cons_append, streamPhase]
        exact hr.2.2
    | raiseErr m => rw [preNoAbort] at h; exact absurd h (by simp)
    | bytes c =>
      rw [preNoAbort, Bool.and_eq_true] at h
      have hc : c.isEmpty = false := by
        cases hce : c.isEmpty
        · rfl
        · rw [hce] at h; exact absurd h.1 (by simp)
      have hr := ih h.2
      refine ⟨?_, ?_, ?_⟩
      · rw [List.cons_append, streamPhase, hc]
        simpa using hr.1
      · rw [List.cons_append, streamPhase, hc]
        simpa using hr.2.1
      · rw [relay_run] at hr ⊢
        rw [List.cons_append, streamPhase, hc]
        simpa using hr.2.2

/-- C5's witness: one nonempty chunk, then a zero-length read. -/
theorem zero_read_clean_end_witness :
    preNoAbort [RecvResult.bytes [1, 2]] = true ∧
    ((streamPhase ([RecvResult.bytes [1, 2]] ++ [RecvResult.bytes []])).2.2 =
        RelayEnd.eofDisconnect ∧
      (streamPhase ([RecvResult.bytes [1, 2]] ++ [RecvResult.bytes []])).2.1 = [] ∧
      (relay_run cableName ([RecvResult.bytes [1, 2]] ++ [RecvResult.bytes []])).events =
        [(aguardandoMsg, infoLv), (streamAtivoMsg cableName, okLv)]) :=
  ⟨by decide, zero_read_clean_end cableName [RecvResult.bytes [1, 2]] (by decide)⟩

/-- C5, the claim as frozen is false: on the run that receives one 2-byte
chunk and then a zero-length read, the streaming loop does end without error
(`eofDisconnect`), but NO "disconnected" status event goes through the status
callback — the loop emits no event at all, and the run's whole event list is
exactly the two startup messages, neither of which reports a disconnect. -/
theorem zero_read_no_disconnect_event :
    relay_run cableName [RecvResult.bytes [1, 2], RecvResult.bytes []] =
      { writes := [[1, 2, 1, 2]]
        events := [(aguardandoMsg, infoLv), (streamAtivoMsg cableName, okLv)]
        ended := RelayEnd.eofDisconnect } ∧
    (streamPhase [RecvResult.bytes [1, 2], RecvResult.bytes []]).2.1 = [] := by
  decide

/-- C6 (amended): for an invocation with `check=True`, a nonzero external
exit status becomes the typed `MicBridgeError` whose message carries the
joined command line and the captured diagnostic detail (stderr, else stdout,
else a placeholder), an exceeded timeout raises `subprocess.TimeoutExpired`
(a propagating exception, never a silent no-op — but not the app's typed
error), and success is only possible on a zero exit; with `check=False`
(the device listing, the package-presence probe, and the best-effort cleanup
commands) a nonzero exit returns the completed process for the caller to
inspect instead of raising. -/
theorem run_command_error_policy (command : List (List Char)) (cp : CompletedProcess)
    (h : cp.returncode ≠ 0) :
    run_command command true (.completes cp) =
      .error (.micBridgeError (falhaMessage command cp)) ∧
    run_command command true .timesOut = .error (.timeoutExpired command) ∧
    run_command command false (.completes cp) = .ok cp ∧
    (∀ outcome cp2, run_command command true outcome = .ok cp2 → cp2.returncode = 0) := by
  have hb : (cp.returncode != 0) = true := by simpa using h
  refine ⟨?_, rfl, ?_, ?_⟩
  · rw [run_command]
    simp [hb]
  · rw [run_command]
    simp
  · intro outcome cp2 hok
    cases outcome with
    | timesOut => simp [run_command] at hok
    | completes cp3 =>
      rw [run_command] at hok
      by_cases h3 : cp3.returncode = 0
      · have : cp3 = cp2 := by simpa [h3] using hok
        rw [← this]
        exact h3
      · have hb3 : (cp3.returncode != 0) = true := by simpa using h3
        simp [hb3] at hok

/-- C6's witness: exit status 1 with `"boom"` on stderr. -/
theorem run_command_error_policy_witness :
    (⟨1, [], "boom".toList⟩ : CompletedProcess).returncode ≠ 0 ∧
    (run_command devicesCommand true (.completes ⟨1, [], "boom".toList⟩) =
        .error (.micBridgeError (falhaMessage devicesCommand ⟨1, [], "boom".toList⟩)) ∧
      run_command devicesCommand true .timesOut =
        .error (.timeoutExpired devicesCommand) ∧
      run_command devicesCommand false (.completes ⟨1, [], "boom".toList⟩) =
        .ok ⟨1, [], "boom".toList⟩ ∧
      (∀ outcome cp2, run_command devicesCommand true outcome = .ok cp2 →
        cp2.returncode = 0)) :=
  ⟨by decide, run_command_error_policy devicesCommand ⟨1, [], "boom".toList⟩ (by decide)⟩

/-- C6, the claim as frozen is false: not every Bridge Client invocation
turns a nonzero exit status into a typed error.  The `adb devices -l` listing
and the package-presence probe run with `check=False`: on exit status 1 they
return normally (`is_package_installed` even folds the nonzero exit into a
plain `false` answer), and an exceeded timeout surfaces as
`subprocess.TimeoutExpired` — not as the app's typed `MicBridgeError`. -/
theorem run_command_unchecked_cex :
    run_command devicesCommand false (CmdOutcome.completes ⟨1, [], []⟩) =
      Except.ok ⟨1, [], []⟩ ∧
    is_package_installed (CmdOutcome.completes ⟨1, [], []⟩) = Except.ok false ∧
    run_command devicesCommand true CmdOutcome.timesOut =
      Except.error (PyError.timeoutExpired devicesCommand) := by
  decide

/-- C4, the claim as frozen is false: a second `AudioRelay.start` while a
worker is active is not a no-op — it changes the relay state, and after it
two worker threads have been spawned (the second then fails to bind the
already-bound port and dies through the error path, while the object only
retains the newer handle). -/
theorem relay_double_start_cex :
    AudioRelay.start (AudioRelay.start (AudioRelay.make 5 cableName)) ≠
      AudioRelay.start (AudioRelay.make 5 cableName) ∧
    (AudioRelay.start (AudioRelay.start (AudioRelay.make 5 cableName))).spawned = 2 ∧
    (AudioRelay.start (AudioRelay.make 5 cableName)).spawned = 1 := by
  decide

/-- C4 (amended): `AudioRelay.start` has no already-running guard: every call
clears the stop event and spawns one more worker thread, so calling it twice
without an intervening stop starts a duplicate worker.  The run-once
protection lives one level up: `_start_worker` returns immediately — state
untouched, no command issued — when the controller's running flag is already
set. -/
theorem relay_start_unguarded (r : AudioRelay) (env : StartEnv) (s : CtrlState)
    (h : s.running = true) :
    (AudioRelay.start r).spawned = r.spawned + 1 ∧
    (AudioRelay.start r).stopSet = false ∧
    (AudioRelay.start r).output_device_index = r.output_device_index ∧
    start_worker env s = (s, []) := by
  refine ⟨rfl, rfl, rfl, ?_⟩
  rw [start_worker, h]
  simp

/-- C4's witness: the initial state with the running flag set. -/
theorem relay_start_unguarded_witness :
    ({ ctrlInit with running := true } : CtrlState).running = true ∧
    ((AudioRelay.start (AudioRelay.make 5 cableName)).spawned =
        (AudioRelay.make 5 cableName).spawned + 1 ∧
      (AudioRelay.start (AudioRelay.make 5 cableName)).stopSet = false ∧
      (AudioRelay.start (AudioRelay.make 5 cableName)).output_device_index =
        (AudioRelay.make 5 cableName).output_device_index ∧
      start_worker envGood { ctrlInit with running := true } =
        ({ ctrlInit with running := true }, [])) :=
  ⟨rfl, relay_start_unguarded (AudioRelay.make 5 cableName) envGood
    { ctrlInit with running := true } rfl⟩

/-- The rename step never touches the adb client, the running flag or the
relay. -/
theorem rename_stage_fields (env : StartEnv) (t : CtrlState) (c : CaptureDevice) :
    (rename_stage env t c).1.adbReady = t.adbReady ∧
    (rename_stage env t c).1.running = t.running ∧
    (rename_stage env t c).1.relay = t.relay := by
  rw [rename_stage]
  split
  · exact ⟨rfl, rfl, rfl⟩
  · split
    · split <;> exact ⟨rfl, rfl, rfl⟩
    · exact ⟨rfl, rfl, rfl⟩

/-- The body of `_start_worker` after the refresh never changes the adb
client or the running flag, whether it completes or raises. -/
theorem start_rest_fields (env : StartEnv) (t : CtrlState) :
    (start_rest env t).state.adbReady = t.adbReady ∧
    (start_rest env t).state.running = t.running := by
  have hrs := rename_stage_fields env t
  simp only [start_rest]
  split
  · split
    · exact ⟨rfl, rfl⟩
    · split
      · exact ⟨rfl, rfl⟩
      · split
        · exact ⟨(hrs _).1, (hrs _).2.1⟩
        · split
          · exact ⟨(hrs _).1, (hrs _).2.1⟩
          · split
            · exact ⟨(hrs _).1, (hrs _).2.1⟩
            · split
              · exact ⟨(hrs _).1, (hrs _).2.1⟩
              · exact ⟨(hrs _).1, (hrs _).2.1⟩
  · exact ⟨rfl, rfl⟩

/-- Only when neither of the first two cleanup commands raises are all three
best-effort adb commands issued. -/
theorem adbCleanupEvs_full (senv : SafeStopEnv)
    (h1 : senv.stopCmd ≠ CmdOutcome.timesOut)
    (h2 : senv.removeCmd ≠ CmdOutcome.timesOut) :
    adbCleanupEvs senv = [Ev.remoteStop, Ev.portRemove, Ev.forceStop] := by
  rw [adbCleanupEvs]
  cases hs : senv.stopCmd with
  | timesOut => exact absurd hs h1
  | completes cp1 =>
    cases hr : senv.removeCmd with
    | timesOut => exact absurd hr h2
    | completes cp2 => rfl

/-- C3 (amended): when the `try:` body of `_start_worker` raises after
device resolution (the refresh left an adb client constructed — the only
part of resolution the cleanup path consults), the controller initiates the
`_safe_stop` sequence: it issues the best-effort adb cleanup commands in
order — remote "stop", forwarded-port removal, force-stop — until one of
them raises (all three sit in a single `try`/`except`, so a timed-out
command silently skips the rest, see the counterexample), always stops and
drops the relay whenever a relay instance exists, reverts the running flag
to false, and only then surfaces the failed state ("Erro") to the user — a
failed start retains no relay instance and no running flag.  All three
commands are issued exactly when neither of the first two raises.  (The
diagnostic log line is written as the handler enters, before the cleanup;
the user-visible error status and the flag revert follow it.) -/
theorem start_failure_cleanup (env : StartEnv) (s : CtrlState)
    (hrun : s.running = false)
    (hadb : (refresh_worker env.renv { s with running := true }).adbReady = true)
    (hfail : (start_body env { s with running := true }).ok = false) :
    (start_worker env s).1.running = false ∧
    (start_worker env s).1.relay = none ∧
    (∃ rel, (rel = [] ∨ rel = [Ev.relayStopEv]) ∧
      (start_worker env s).2 =
        (start_body env { s with running := true }).events ++
          [Ev.logStartFailure] ++
          (adbCleanupEvs env.stopEnv ++ rel) ++
          [Ev.statusError]) ∧
    (env.stopEnv.stopCmd ≠ CmdOutcome.timesOut →
      env.stopEnv.removeCmd ≠ CmdOutcome.timesOut →
      adbCleanupEvs env.stopEnv = [Ev.remoteStop, Ev.portRemove, Ev.forceStop]) := by
  have hAdbErr : (start_body env { s with running := true }).state.adbReady = true := by
    rw [start_body,
      (start_rest_fields env (refresh_worker env.renv { s with running := true })).1]
    exact hadb
  have hW : start_worker env s =
      ({ (safe_stop env.stopEnv (start_body env { s with running := true }).state).1 with
          running := false },
        (start_body env { s with running := true }).events ++ [Ev.logStartFailure] ++
          (safe_stop env.stopEnv (start_body env { s with running := true }).state).2 ++
          [Ev.statusError]) := by
    simp only [start_worker, hrun, Bool.false_eq_true, if_false, hfail]
  have hS : (safe_stop env.stopEnv (start_body env { s with running := true }).state).1.relay
        = none ∧
      ∃ rel, (rel = [] ∨ rel = [Ev.relayStopEv]) ∧
        (safe_stop env.stopEnv (start_body env { s with running := true }).state).2 =
          adbCleanupEvs env.stopEnv ++ rel := by
    simp only [safe_stop, hAdbErr, Bool.true_or, if_true]
    cases hrel : (start_body env { s with running := true }).state.relay with
    | none => exact ⟨rfl, [], Or.inl rfl, by simp⟩
    | some r0 => exact ⟨rfl, [Ev.relayStopEv], Or.inr rfl, rfl⟩
  rw [hW]
  obtain ⟨rel, hor, h2⟩ := hS.2
  refine ⟨rfl, hS.1, ⟨rel, hor, ?_⟩, adbCleanupEvs_full env.stopEnv⟩
  rw [h2]

/-- C3's witness: a start that fails at the final remote "start" command,
with the relay already created and all cleanup commands completing. -/
theorem start_failure_cleanup_witness :
    (ctrlInit.running = false ∧
      (refresh_worker envFailAm.renv { ctrlInit with running := true }).adbReady = true ∧
      (start_body envFailAm { ctrlInit with running := true }).ok = false) ∧
    ((start_worker envFailAm ctrlInit).1.running = false ∧
      (start_worker envFailAm ctrlInit).1.relay = none ∧
      (∃ rel, (rel = [] ∨ rel = [Ev.relayStopEv]) ∧
        (start_worker envFailAm ctrlInit).2 =
          (start_body envFailAm { ctrlInit with running := true }).events ++
            [Ev.logStartFailure] ++
            (adbCleanupEvs envFailAm.stopEnv ++ rel) ++
            [Ev.statusError]) ∧
      (envFailAm.stopEnv.stopCmd ≠ CmdOutcome.timesOut →
        envFailAm.stopEnv.removeCmd ≠ CmdOutcome.timesOut →
        adbCleanupEvs envFailAm.stopEnv =
          [Ev.remoteStop, Ev.portRemove, Ev.forceStop])) :=
  ⟨⟨rfl, by decide, by decide⟩,
    start_failure_cleanup envFailAm ctrlInit rfl (by decide) (by decide)⟩

/-- C3, the claim as frozen is false: the cleanup sequence is not guaranteed
to run in full.  On a start that fails at the remote "start" command, with
the cleanup's own remote "stop" command then exceeding its timeout, the
single `try`/`except` around the three best-effort adb commands swallows the
`TimeoutExpired` and skips the rest of the block: the trace has the remote
stop and the relay stop, the error is surfaced and the flags reverted — but
no forwarded-port removal and no force-stop is ever issued. -/
theorem cleanup_timeout_skips_commands_cex :
    (start_worker envFailAmHang ctrlInit).1.running = false ∧
    (start_worker envFailAmHang ctrlInit).1.relay = none ∧
    Ev.remoteStop ∈ (start_worker envFailAmHang ctrlInit).2 ∧
    Ev.relayStopEv ∈ (start_worker envFailAmHang ctrlInit).2 ∧
    Ev.portRemove ∉ (start_worker envFailAmHang ctrlInit).2 ∧
    Ev.forceStop ∉ (start_worker envFailAmHang ctrlInit).2 ∧
    Ev.statusError ∈ (start_worker envFailAmHang ctrlInit).2 := by
  decide

/-- `_refresh_worker` never touches the running flag or the relay instance. -/
theorem refresh_worker_fields (env : RefreshEnv) (s : CtrlState) :
    (refresh_worker env s).running = s.running ∧
    (refresh_worker env s).relay = s.relay := by
  simp only [refresh_worker]
  repeat' split
  all_goals exact ⟨rfl, rfl⟩

/-- C7 (amended): a failed rename of the capture device is non-fatal — the
failure is logged (`renameAttempt false`) and `start()` continues through
default-device assignment, the route check, relay startup and the remote
"start" command, ending with the running flag still set — but the
assignment of the OS default input (`set_default_capture_device`) is an
unguarded call: only rename failures are tolerated, not assignment failures
(see the counterexample). -/
theorem rename_failure_nonfatal (env : StartEnv) (s : CtrlState) (outDev : OutputDevice)
    (capDev : CaptureDevice) (phone : AdbDevice)
    (hrun : s.running = false)
    (ho : (refresh_worker env.renv { s with running := true }).output_device = some outDev)
    (hc : (refresh_worker env.renv { s with running := true }).capture_device = some capDev)
    (ha : (refresh_worker env.renv { s with running := true }).adbReady = true)
    (hdev : get_connected_device env.adbDevices2 = .ok phone)
    (hpkg : env.pkgInstalled = true)
    (hneed : containsSub (lowerStr capDev.name) (lowerStr TARGET_MIC_NAME) = false)
    (hrenFail : env.renameOk = false)
    (hassign : env.assignOk = true)
    (hroute : env.routeOk = true)
    (hrev : env.reverseOk = true)
    (ham : env.amStartOk = true) :
    (start_worker env s).1.running = true ∧
    (start_worker env s).1.relay =
      some (AudioRelay.start (AudioRelay.make outDev.index outDev.name)) ∧
    (start_worker env s).2 =
      [Ev.renameAttempt false, Ev.setDefaultMic, Ev.routeCheck, Ev.relayStarted,
        Ev.portForward, Ev.remoteStart, Ev.statusTransmitting] := by
  have hrunning := (refresh_worker_fields env.renv { s with running := true }).1
  have hbody : start_body env { s with running := true } =
      { ok := true,
        state := { refresh_worker env.renv { s with running := true } with
          relay := some (AudioRelay.start (AudioRelay.make outDev.index outDev.name)) },
        events := [Ev.renameAttempt false, Ev.setDefaultMic, Ev.routeCheck, Ev.relayStarted,
          Ev.portForward, Ev.remoteStart, Ev.statusTransmitting] } := by
    rw [start_body, start_rest, ho, hc, ha, hdev]
    simp [rename_stage, hneed, hrenFail, hpkg, hassign, hroute, hrev, ham]
  simp only [start_worker, hrun, Bool.false_eq_true, if_false, hbody, if_true]
  refine ⟨?_, ?_, ?_⟩ <;> simp [hrunning]

/-- C7's witness: the rename fails, yet the start completes through relay
startup and the remote "start" command. -/
theorem rename_failure_nonfatal_witness :
    envRenameFail.renameOk = false ∧
    containsSub (lowerStr capCable.name) (lowerStr TARGET_MIC_NAME) = false ∧
    ((start_worker envRenameFail ctrlInit).1.running = true ∧
      (start_worker envRenameFail ctrlInit).1.relay =
        some (AudioRelay.start (AudioRelay.make 5 cableName)) ∧
      (start_worker envRenameFail ctrlInit).2 =
        [Ev.renameAttempt false, Ev.setDefaultMic, Ev.routeCheck, Ev.relayStarted,
          Ev.portForward, Ev.remoteStart, Ev.statusTransmitting]) :=
  ⟨rfl, by decide,
    rename_failure_nonfatal envRenameFail ctrlInit ⟨5, cableName⟩ capCable phoneDev
      (by decide) (by decide) (by decide) (by decide) (by decide) (by decide) (by decide)
      (by decide) (by decide) (by decide) (by decide) (by decide)⟩

/-- C7, the claim as frozen is false for the assignment half: when
`set_default_capture_device` raises, `start()` does NOT continue to relay
startup — the relay is never started, the failure handler runs the stop
sequence and the session reverts to not-running. -/
theorem assign_failure_aborts_cex :
    Ev.relayStarted ∉ (start_worker envAssignFail ctrlInit).2 ∧
    Ev.setDefaultMic ∉ (start_worker envAssignFail ctrlInit).2 ∧
    (start_worker envAssignFail ctrlInit).1.running = false ∧
    (start_worker envAssignFail ctrlInit).2 =
      [Ev.logStartFailure, Ev.remoteStop, Ev.portRemove, Ev.forceStop, Ev.statusError] := by
  decide

/-- C9 (amended): the relay instance a session streams through — constructed
at start with its output device copied into it — is never reassigned by the
refresh operation, which also leaves the running flag alone; the session's
audio path is therefore fixed.  But the controller's chosen device *fields*
are not immutable mid-session: `_refresh_worker` reassigns them whenever it
runs (see the counterexample), and the rename step during start can replace
the capture choice. -/
theorem refresh_preserves_relay (env : RefreshEnv) (s : CtrlState) :
    (refresh_worker env s).relay = s.relay ∧
    (refresh_worker env s).running = s.running :=
  ⟨(refresh_worker_fields env s).2, (refresh_worker_fields env s).1⟩

/-- C9, the claim as frozen is false: after a successful start (running flag
set, capture choice `capMicmic`), the refresh operation — still enabled
mid-session, it is only debounced while another worker is in flight — re-runs
`choose_preferred` and reassigns the chosen capture device while the session
keeps running with the old relay. -/
theorem midsession_refresh_reassigns_cex :
    (start_worker envGood ctrlInit).1.running = true ∧
    (start_worker envGood ctrlInit).1.capture_device = some capMicmic ∧
    (refresh_worker renvCable (start_worker envGood ctrlInit).1).running = true ∧
    (refresh_worker renvCable (start_worker envGood ctrlInit).1).capture_device =
      some capCable ∧
    some capCable ≠ some capMicmic ∧
    (refresh_worker renvCable (start_worker envGood ctrlInit).1).relay =
      (start_worker envGood ctrlInit).1.relay := by
  decide
